import Mathlib

/-!
Verification of the NEXUS desktop automation engine
(`src/server/scripts/desktop_agent.py`).

Shallow embedding conventions:
* Python strings are modelled as `List Char` (ASCII semantics for
  lowercasing); Python `s[:n]` is `List.take n`, `q in c` is the
  contiguous-substring test `pyIn`, `c.startswith(q)` is `startsL`.
* OCR confidences (floats in `[0,1]`) are modelled exactly in hundredths
  as a `Nat` (`conf100`); the code's comparisons `score*conf > best` and
  `score*conf >= 20` become `score*conf100 > best100` and
  `score*conf100 >= 2000`, an order isomorphism.  Shortcut settle delays
  (0.2..0.6 s) are modelled in tenths of a second as a `Nat`.
* The float expression `int(hits / max(len(q),1) * 30)` in `fuzzy_score`
  equals exact `(hits * 30) / max (len q) 1` in `Nat` division for all
  realistic lengths, and is embedded as such.
* Effectful tiers (CDP round trips, UIA bindings, OCR readings, window
  enumerations) are abstracted as environment records supplying each
  external collaborator's outcome; the routing, scoring and table-lookup
  logic — what the claims are about — is embedded exactly.
-/

set_option linter.unusedVariables false

/-! ### Python string primitives -/

/-- `c.startswith(q)`: `q` is a leading block of `c` (arguments: query, then
candidate read left to right). -/
def startsL : List Char → List Char → Bool
  | [], _ => true
  | _ :: _, [] => false
  | a :: as, b :: bs => a == b && startsL as bs

/-- Python `q in c`: `q` occurs contiguously inside `c`. -/
def pyIn : List Char → List Char → Bool
  | q, [] => q.isEmpty
  | q, c :: cs => startsL q (c :: cs) || pyIn q cs

/-- Python `str.lower` (ASCII). -/
def lowerL (s : List Char) : List Char := s.map Char.toLower

/-- Whitespace recognised by the embedded `str.strip`. -/
def isWS (c : Char) : Bool := c = ' ' || c = '\t' || c = '\n' || c = '\r'

/-- Python `str.strip()`. -/
def pyStrip (s : List Char) : List Char :=
  ((s.dropWhile isWS).reverse.dropWhile isWS).reverse

/-! ### Fuzzy matcher (`normalise`, `fuzzy_score`) -/

/-- `normalise` from the source: lowercase, then drop spaces, hyphens and
underscores. -/
def normalise (s : List Char) : List Char :=
  (((lowerL s).filter (fun c => !(c == ' '))).filter
      (fun c => !(c == '-'))).filter (fun c => !(c == '_'))

/-- `fuzzy_score` from the source, embedded over `List Char` with exact
`Nat` arithmetic for the overlap branch. -/
def fuzzy_score (query candidate : List Char) : Nat :=
  let q := normalise query
  let c := normalise candidate
  if c = q then 100
  else if startsL q c then 85
  else if pyIn q c then 70
  else if pyIn c q then 55
  else
    let hits := (q.filter (fun ch => ch ∈ c)).length
    (hits * 30) / (max q.length 1)

/-- The scoring rule exactly as the specification words it: first match
wins — equal 100, candidate-starts-with-query 85, query-inside-candidate
70, candidate-inside-query 55, else character-overlap ratio scaled to
0–30 and floored. -/
def fuzzyScoreSpec (query candidate : List Char) : Nat :=
  let q := normalise query
  let c := normalise candidate
  if c = q then 100
  else if startsL q c then 85
  else if pyIn q c then 70
  else if pyIn c q then 55
  else
    let hits := (q.filter (fun ch => ch ∈ c)).length
    (hits * 30) / (max q.length 1)

/-! ### Keyboard-shortcut tables (`APP_SHORTCUTS`, `get_shortcut`)

A table value is `(hotkey : Option (List Char), settleDelayTenths : Nat)`;
`none` encodes Python's `None` hotkey ("needs mouse click") and delays are
in tenths of a second (`0.6 s` is `6`). -/

/-- One per-application shortcut table: element-name key to value. -/
def ShortcutTable := List (List Char × Option (List Char) × Nat)

/-- `APP_SHORTCUTS` from the source, in Python dict insertion order. -/
def APP_SHORTCUTS : List (List Char × ShortcutTable) := [
  ("whatsapp".toList, [
    ("search".toList, some "ctrl+f".toList, 6),
    ("new chat".toList, some "ctrl+n".toList, 5),
    ("type a message".toList, none, 0),
    ("settings".toList, some "ctrl+,".toList, 5),
    ("emoji".toList, some "ctrl+e".toList, 5)]),
  ("discord".toList, [
    ("search".toList, some "ctrl+k".toList, 6),
    ("settings".toList, some "ctrl+,".toList, 5),
    ("type a message".toList, none, 0),
    ("mark as read".toList, some "escape".toList, 3),
    ("upload".toList, some "ctrl+shift+u".toList, 5)]),
  ("spotify".toList, [
    ("search".toList, some "ctrl+l".toList, 6),
    ("play".toList, some "space".toList, 3),
    ("pause".toList, some "space".toList, 3),
    ("next".toList, some "ctrl+right".toList, 3),
    ("previous".toList, some "ctrl+left".toList, 3),
    ("volume up".toList, some "ctrl+up".toList, 3),
    ("volume down".toList, some "ctrl+down".toList, 3),
    ("home".toList, some "ctrl+shift+h".toList, 5)]),
  ("youtube".toList, [
    ("search".toList, some "slash".toList, 5),
    ("play".toList, some "k".toList, 3),
    ("pause".toList, some "k".toList, 3),
    ("fullscreen".toList, some "f".toList, 3),
    ("mute".toList, some "m".toList, 3)]),
  ("vscode".toList, [
    ("search".toList, some "ctrl+p".toList, 5),
    ("command".toList, some "ctrl+shift+p".toList, 5),
    ("terminal".toList, some "ctrl+`".toList, 5),
    ("new file".toList, some "ctrl+n".toList, 5),
    ("save".toList, some "ctrl+s".toList, 3),
    ("find".toList, some "ctrl+f".toList, 5)]),
  ("telegram".toList, [
    ("search".toList, some "ctrl+f".toList, 5),
    ("new message".toList, some "ctrl+n".toList, 5)]),
  ("slack".toList, [
    ("search".toList, some "ctrl+k".toList, 5),
    ("type a message".toList, none, 0),
    ("new message".toList, some "ctrl+n".toList, 5)]),
  ("chrome".toList, [
    ("address".toList, some "ctrl+l".toList, 4),
    ("new tab".toList, some "ctrl+t".toList, 4),
    ("search".toList, some "ctrl+f".toList, 4),
    ("close tab".toList, some "ctrl+w".toList, 3),
    ("refresh".toList, some "f5".toList, 3)]),
  ("notepad".toList, [
    ("find".toList, some "ctrl+f".toList, 4),
    ("save".toList, some "ctrl+s".toList, 3),
    ("select all".toList, some "ctrl+a".toList, 3)])]

/-- The application-agnostic `GENERIC` fallback table inside
`get_shortcut`, in source order. -/
def GENERIC_SHORTCUTS : List (List Char × List Char × Nat) := [
  ("search".toList, "ctrl+f".toList, 5),
  ("find".toList, "ctrl+f".toList, 5),
  ("save".toList, "ctrl+s".toList, 3),
  ("undo".toList, "ctrl+z".toList, 3),
  ("redo".toList, "ctrl+y".toList, 3),
  ("copy".toList, "ctrl+c".toList, 2),
  ("paste".toList, "ctrl+v".toList, 2),
  ("cut".toList, "ctrl+x".toList, 2)]

/-- `known_elem in elem_key or elem_key in known_elem`. -/
def bothContain (a b : List Char) : Bool := pyIn a b || pyIn b a

/-- Scan one application's table for the first element-key hit. -/
def findElemEntry : ShortcutTable → List Char → Option (Option (List Char) × Nat)
  | [], _ => none
  | (k, v) :: rest, elemKey =>
    if bothContain k elemKey then some v else findElemEntry rest elemKey

/-- Scan the per-application tables in order: an application whose key
matches contributes its first matching element entry; an application match
without an element hit falls through to later applications. -/
def findAppEntry :
    List (List Char × ShortcutTable) → List Char → List Char →
      Option (Option (List Char) × Nat)
  | [], _, _ => none
  | (ak, entries) :: rest, appKey, elemKey =>
    if bothContain ak appKey then
      match findElemEntry entries elemKey with
      | some v => some v
      | none => findAppEntry rest appKey elemKey
    else findAppEntry rest appKey elemKey

/-- Scan the generic table (`key in elem_key`, one direction). -/
def findGenericEntry : List (List Char × List Char × Nat) → List Char →
    Option (List Char × Nat)
  | [], _ => none
  | (k, v) :: rest, elemKey =>
    if pyIn k elemKey then some v else findGenericEntry rest elemKey

/-- `get_shortcut` from the source: per-application tables first (keys
matched by substring containment in either direction on lowercased,
stripped names), then the generic table; `(none, none)` when nothing
matches. -/
def get_shortcut (app elem : List Char) : Option (List Char) × Option Nat :=
  let appKey := pyStrip (lowerL app)
  let elemKey := pyStrip (lowerL elem)
  match findAppEntry APP_SHORTCUTS appKey elemKey with
  | some (hk, d) => (hk, some d)
  | none =>
    match findGenericEntry GENERIC_SHORTCUTS elemKey with
    | some (hk, d) => (some hk, some d)
    | none => (none, none)

/-- Claim-worded variant of the element-key scan: containment is tested on
`normalise`d names (spaces, hyphens, underscores stripped). -/
def findElemEntryNorm : ShortcutTable → List Char → Option (Option (List Char) × Nat)
  | [], _ => none
  | (k, v) :: rest, elemKey =>
    if bothContain (normalise k) (normalise elemKey) then some v
    else findElemEntryNorm rest elemKey

/-- Claim-worded variant of the per-application scan on `normalise`d names. -/
def findAppEntryNorm :
    List (List Char × ShortcutTable) → List Char → List Char →
      Option (Option (List Char) × Nat)
  | [], _, _ => none
  | (ak, entries) :: rest, appKey, elemKey =>
    if bothContain (normalise ak) (normalise appKey) then
      match findElemEntryNorm entries elemKey with
      | some v => some v
      | none => findAppEntryNorm rest appKey elemKey
    else findAppEntryNorm rest appKey elemKey

/-- Claim-worded generic scan on `normalise`d names. -/
def findGenericEntryNorm : List (List Char × List Char × Nat) → List Char →
    Option (List Char × Nat)
  | [], _ => none
  | (k, v) :: rest, elemKey =>
    if pyIn (normalise k) (normalise elemKey) then some v
    else findGenericEntryNorm rest elemKey

/-- Shortcut lookup exactly as the claim words it: the same two-phase
precedence, but with names compared after full normalization (lowercase
and strip spaces, hyphens, underscores). -/
def getShortcutClaim (app elem : List Char) : Option (List Char) × Option Nat :=
  match findAppEntryNorm APP_SHORTCUTS app elem with
  | some (hk, d) => (hk, some d)
  | none =>
    match findGenericEntryNorm GENERIC_SHORTCUTS elem with
    | some (hk, d) => (some hk, some d)
    | none => (none, none)

/-! ### Smart action router (`smart_click`, `smart_type`)

The external collaborators a routing run consults are abstracted as a
`RouterEnv`: the discovered CDP port, the outcome the CDP round trip would
report, whether the UIA path completes without an exception, and the
coordinates the OCR tier would find.  The routing logic itself is embedded
exactly from the source. -/

/-- The result record a router returns: either success with a strategy tag
or failure with an error message (never partially filled). -/
inductive ActionResult where
  | ok (strategy : List Char)
  | err (msg : List Char)
deriving DecidableEq

/-- `result.get("success")`. -/
def ActionResult.success : ActionResult → Bool
  | .ok _ => true
  | .err _ => false

/-- Python `f"{(x, y)}"` for a coordinate pair. -/
def fmtPair (x y : Nat) : List Char :=
  "(".toList ++ (Nat.repr x).toList ++ ", ".toList ++ (Nat.repr y).toList ++
    ")".toList

/-- Outcomes of the external collaborators during one routing run. -/
structure RouterEnv where
  /-- The CDP debug port found for the window, if any. -/
  cdpPort : Option Nat
  /-- What `cdp_action(port, "click", ...)` would return. -/
  cdpClick : Option ActionResult
  /-- What `cdp_action(port, "type", ...)` would return. -/
  cdpType : Option ActionResult
  /-- Whether the UIA click path (find element, focus, click) completes. -/
  uiaClick : Bool
  /-- Whether the UIA type path (find element, set text) completes. -/
  uiaType : Bool
  /-- What `ocr_find_element` would return for this element. -/
  ocr : Option (Nat × Nat)

/-- `text.startswith("{") and text.endswith("}")` (`is_special` in
`smart_type`). -/
def isSpecialText (t : List Char) : Bool :=
  t.head? == some (Char.ofNat 123) && t.getLast? == some (Char.ofNat 125)

/-- `smart_click` from the source: CDP (when a port exists and the round
trip reports success), then UIA, then keyboard shortcut (when the looked-up
hotkey is truthy), then OCR+mouse, else the all-layers-failed error. -/
def smart_click (app elem : List Char) (env : RouterEnv) : ActionResult :=
  let l1 : Option ActionResult :=
    match env.cdpPort with
    | some _ =>
      match env.cdpClick with
      | some r => if r.success then some r else none
      | none => none
    | none => none
  match l1 with
  | some r => r
  | none =>
    if env.uiaClick then .ok "uia:click".toList
    else
      match get_shortcut app elem with
      | (some (c :: cs), _) => .ok ("keyboard:".toList ++ (c :: cs))
      | _ =>
        match env.ocr with
        | some (x, y) => .ok ("ocr:click:".toList ++ fmtPair x y)
        | none =>
          .err ("All layers failed to click \"".toList ++ elem ++ "\"".toList)

/-- `smart_type` from the source: CDP, then UIA (skipped when the text is
brace-enclosed), then OCR to locate the element and type, then an
unconditional type-into-focused-element fallback. -/
def smart_type (app elem text : List Char) (env : RouterEnv) : ActionResult :=
  let is_special := isSpecialText text
  let l1 : Option ActionResult :=
    match env.cdpPort with
    | some _ =>
      match env.cdpType with
      | some r => if r.success then some r else none
      | none => none
    | none => none
  match l1 with
  | some r => r
  | none =>
    if !is_special && env.uiaType then .ok "uia:type".toList
    else
      match env.ocr with
      | some (x, y) => .ok ("ocr:type:".toList ++ fmtPair x y)
      | none => .ok "fallback:type_focused".toList

/-! Specification-side tier strategies: each tier yields `none` when
unavailable and otherwise its `ActionResult`; the router takes the first
tier whose result is a success. -/

/-- Structured-Document tier for a click intent. -/
def tierSDClick (env : RouterEnv) : Option ActionResult :=
  match env.cdpPort, env.cdpClick with
  | some _, some r => some r
  | _, _ => none

/-- Structured-Document tier for a type intent. -/
def tierSDType (env : RouterEnv) : Option ActionResult :=
  match env.cdpPort, env.cdpType with
  | some _, some r => some r
  | _, _ => none

/-- Accessibility tier for a click intent. -/
def tierAccClick (env : RouterEnv) : Option ActionResult :=
  if env.uiaClick then some (.ok "uia:click".toList) else none

/-- Accessibility tier for a type intent. -/
def tierAccType (env : RouterEnv) : Option ActionResult :=
  if env.uiaType then some (.ok "uia:type".toList) else none

/-- Shortcut tier: available exactly when the lookup returns a truthy
hotkey. -/
def tierShortcut (app elem : List Char) : Option ActionResult :=
  match get_shortcut app elem with
  | (some (c :: cs), _) => some (.ok ("keyboard:".toList ++ (c :: cs)))
  | _ => none

/-- Visual-Recognition tier for a click intent. -/
def tierVisClick (env : RouterEnv) : Option ActionResult :=
  match env.ocr with
  | some (x, y) => some (.ok ("ocr:click:".toList ++ fmtPair x y))
  | none => none

/-- Visual-Recognition tier for a type intent. -/
def tierVisType (env : RouterEnv) : Option ActionResult :=
  match env.ocr with
  | some (x, y) => some (.ok ("ocr:type:".toList ++ fmtPair x y))
  | none => none

/-- First tier result that is a success; unavailable (`none`) and failed
tiers are passed over. -/
def firstHit : List (Option ActionResult) → Option ActionResult
  | [] => none
  | none :: ts => firstHit ts
  | some r :: ts => if r.success then some r else firstHit ts

/-- The click router as the specification words it: the four tiers in
fixed precedence, stopping at the first success, else failure. -/
def routeClickSpec (app elem : List Char) (env : RouterEnv) : ActionResult :=
  match firstHit [tierSDClick env, tierAccClick env, tierShortcut app elem,
      tierVisClick env] with
  | some r => r
  | none => .err ("All layers failed to click \"".toList ++ elem ++ "\"".toList)

/-- The type router as the original claim words it: the same four tiers in
the same fixed precedence for a type intent. -/
def routeTypeClaim (app elem : List Char) (env : RouterEnv) : ActionResult :=
  match firstHit [tierSDType env, tierAccType env, tierShortcut app elem,
      tierVisType env] with
  | some r => r
  | none => .err ("All layers failed to type into \"".toList ++ elem ++ "\"".toList)

/-- The type router as the code actually behaves (amended claim):
Structured-Document, then Accessibility unless the text is brace-enclosed,
then Visual-Recognition, then the always-successful focused-typing
fallback; the Shortcut tier is never consulted. -/
def routeTypeSpec (app elem text : List Char) (env : RouterEnv) : ActionResult :=
  match firstHit [tierSDType env,
      if isSpecialText text then none else tierAccType env,
      tierVisType env] with
  | some r => r
  | none => .ok "fallback:type_focused".toList

/-- The type router for brace-enclosed text as claim C10 words it:
Structured-Document straight to Visual-Recognition, then the
focused-typing fallback, with no Accessibility consultation at all. -/
def routeTypeSpecial (app elem text : List Char) (env : RouterEnv) : ActionResult :=
  match firstHit [tierSDType env, tierVisType env] with
  | some r => r
  | none => .ok "fallback:type_focused".toList

/-! ### Visual-Recognition tier (`ocr_find_element`)

One OCR detection: the four bounding-box corner points, the recognized
text, and the recognition confidence, stored exactly in hundredths
(`conf100 = 30` is confidence `0.30`).  The code's float comparisons
`score*conf > best` and `score*conf >= 20` become the order-isomorphic
`score*conf100 > best100` and `score*conf100 >= 2000`. -/

/-- One OCR detection (`([bbox], text, confidence)`). -/
structure Det where
  p1 : Nat × Nat
  p2 : Nat × Nat
  p3 : Nat × Nat
  p4 : Nat × Nat
  text : List Char
  conf100 : Nat
deriving DecidableEq

/-- Center of a detection's bounding box translated to absolute screen
coordinates: `int(sum(xs)/4) + win_left`, `int(sum(ys)/4) + win_top`. -/
def detCenter (d : Det) (origin : Nat × Nat) : Nat × Nat :=
  ((d.p1.1 + d.p2.1 + d.p3.1 + d.p4.1) / 4 + origin.1,
   (d.p1.2 + d.p2.2 + d.p3.2 + d.p4.2) / 4 + origin.2)

/-- `fuzzy_score(element_name, text.lower().strip()) * conf`, in the
hundredths scale. -/
def detWeight (elem : List Char) (d : Det) : Nat :=
  fuzzy_score elem (pyStrip (lowerL d.text)) * d.conf100

/-- One step of the best-detection scan without the confidence guard:
keep the running best, replacing it when this detection scores strictly
higher. -/
def ocrStepClaim (elem : List Char) (origin : Nat × Nat)
    (acc : Nat × Option (Nat × Nat)) (d : Det) : Nat × Option (Nat × Nat) :=
  if detWeight elem d > acc.1 then (detWeight elem d, some (detCenter d origin))
  else acc

/-- One step of the source's loop: detections with confidence below `0.4`
are skipped before scoring. -/
def ocrStep (elem : List Char) (origin : Nat × Nat)
    (acc : Nat × Option (Nat × Nat)) (d : Det) : Nat × Option (Nat × Nat) :=
  if d.conf100 < 40 then acc else ocrStepClaim elem origin acc d

/-- `ocr_find_element` from the source: scan all detections with the
guarded step, then return the best center only when one was recorded and
its weighted score reaches the threshold. -/
def ocr_find_element (elem : List Char) (dets : List Det)
    (origin : Nat × Nat) : Option (Nat × Nat) :=
  let best := dets.foldl (ocrStep elem origin) (0, none)
  if best.2.isSome = true ∧ 2000 ≤ best.1 then best.2 else none

/-- The selection exactly as the claim words it: score every detected
region (no confidence pre-filter), take the highest-scoring one, and
return its translated center iff the weighted score reaches the
threshold. -/
def ocrSelectClaim (elem : List Char) (dets : List Det)
    (origin : Nat × Nat) : Option (Nat × Nat) :=
  let best := dets.foldl (ocrStepClaim elem origin) (0, none)
  if 2000 ≤ best.1 then best.2 else none

/-- The claim as amended: identical, but only detections with confidence
at least `0.4` are scored. -/
def ocrSelectAmended (elem : List Char) (dets : List Det)
    (origin : Nat × Nat) : Option (Nat × Nat) :=
  let best := (dets.filter (fun d => !(decide (d.conf100 < 40)))).foldl
    (ocrStepClaim elem origin) (0, none)
  if 2000 ≤ best.1 then best.2 else none

/-! ### `cmd_list_elements` result shaping

One raw UIA descendant read: `titleRead = none` models `window_text()`
raising (the element is skipped); `ctrlRead`/`autoRead = none` model the
inner reads raising, which leaves the empty-string defaults. -/

/-- The reads obtained from one `win.descendants()` element. -/
structure RawEl where
  titleRead : Option (List Char)
  ctrlRead : Option (List Char)
  autoRead : Option (List Char)

/-- One `{title, control_type, auto_id}` triple of the result record. -/
structure ElemTriple where
  title : List Char
  control_type : List Char
  auto_id : List Char
deriving DecidableEq

/-- The `elements` sequence `cmd_list_elements` builds and returns:
elements with a title or an automation id contribute
`{title[:60], str(control_type), auto_id[:60]}`, and the reply carries
`elements[:80]`. -/
def cmd_list_elements_items (raws : List RawEl) : List ElemTriple :=
  (raws.filterMap (fun r =>
    match r.titleRead with
    | none => none
    | some t =>
      let ctrl := r.ctrlRead.getD []
      let auto := r.autoRead.getD []
      if t ≠ [] ∨ auto ≠ [] then some ⟨t.take 60, ctrl, auto.take 60⟩
      else none)).take 80

/-! ### Window locator (`find_window_handle`)

The polling loop is embedded with an explicit integer clock: the
environment supplies, for each iteration `i`, the enumerated window set,
whether binding an automation handle to the best window would succeed, and
how long the iteration takes (`durTicks + 1 > 0` ticks elapse, modelling
enumeration plus the `0.8 s` sleep).  The loop body runs only while the
clock is strictly before the deadline, exactly as
`while time.time() < deadline`. -/

/-- One enumerated top-level window; `readOk = false` models
`window_text()`/`class_name()` raising, which skips the window. -/
structure WinInfo where
  title : List Char
  cls : List Char
  readOk : Bool
deriving DecidableEq

/-- One polling iteration's environment. -/
structure FWRound where
  wins : List WinInfo
  bindOk : Bool
  durTicks : Nat

/-- `max(fuzzy_score(app_name, title), fuzzy_score(app_name, class))`. -/
def winScore (app : List Char) (w : WinInfo) : Nat :=
  max (fuzzy_score app w.title) (fuzzy_score app w.cls)

/-- The best-window scan of one iteration: strict improvement over a
running best starting at score `0`, skipping unreadable windows. -/
def bestWin (app : List Char) (ws : List WinInfo) : Nat × Option WinInfo :=
  ws.foldl (fun acc w =>
    if w.readOk then
      if winScore app w > acc.1 then (winScore app w, some w) else acc
    else acc) (0, none)

/-- One loop iteration: a window is returned when a best window exists,
scores at least `40`, and the automation bind succeeds; otherwise the
iteration yields nothing and the loop continues. -/
def fwRound (app : List Char) (r : FWRound) : Option WinInfo :=
  match (bestWin app r.wins).2 with
  | some w => if 40 ≤ (bestWin app r.wins).1 ∧ r.bindOk then some w else none
  | none => none

/-- The polling loop of `find_window_handle`: iterate while the clock is
before the deadline, consuming one environment round per iteration. -/
def fwLoop (app : List Char) (env : Nat → FWRound) (i deadline now : Nat) :
    Option WinInfo :=
  if now < deadline then
    match fwRound app (env i) with
    | some w => some w
    | none => fwLoop app env (i + 1) deadline (now + (env i).durTicks + 1)
  else none
termination_by deadline - now
decreasing_by omega

/-- `find_window_handle(app_name, timeout)`: run the polling loop from
clock `0` with deadline `timeout`; `none` is the terminal
window-not-found failure. -/
def find_window_handle (app : List Char) (env : Nat → FWRound)
    (timeout : Nat) : Option WinInfo :=
  fwLoop app env 0 timeout 0

/-! ### Selector synthesizer (`build_selectors`)

Selectors are the Python f-strings of the source; interpolated ones are
written with an explicit leading character so their head is visible to the
proofs.  `dedupFirst` is the source's seen-set deduplication, keeping
first occurrences. -/

/-- `f-string [placeholder*="{e}" i]`. -/
def selPlaceholder (e : List Char) : List Char :=
  '[' :: ("placeholder*=\"".toList ++ e ++ "\" i]".toList)

/-- `f-string [aria-label*="{e}" i]`. -/
def selAriaLabel (e : List Char) : List Char :=
  '[' :: ("aria-label*=\"".toList ++ e ++ "\" i]".toList)

/-- `f-string [title*="{e}" i]` (used by both the input and button
blocks). -/
def selTitleAttr (e : List Char) : List Char :=
  '[' :: ("title*=\"".toList ++ e ++ "\" i]".toList)

/-- `f-string button[aria-label*="{e}" i]`. -/
def selBtnAria (e : List Char) : List Char :=
  'b' :: ("utton[aria-label*=\"".toList ++ e ++ "\" i]".toList)

/-- `f-string [role="button"][aria-label*="{e}" i]`. -/
def selRoleBtnAria (e : List Char) : List Char :=
  '[' :: ("role=\"button\"][aria-label*=\"".toList ++ e ++ "\" i]".toList)

/-- `f-string button:has-text("{e}")`. -/
def selBtnHasText (e : List Char) : List Char :=
  'b' :: ("utton:has-text(\"".toList ++ e ++ "\")".toList)

/-- `f-string a[aria-label*="{e}" i]`. -/
def selAHasAria (e : List Char) : List Char :=
  'a' :: ("[aria-label*=\"".toList ++ e ++ "\" i]".toList)

/-- `f-string [role="tab"][aria-label*="{e}" i]`. -/
def selRoleTabAria (e : List Char) : List Char :=
  '[' :: ("role=\"tab\"][aria-label*=\"".toList ++ e ++ "\" i]".toList)

/-- `f-string nav a:has-text("{e}")`. -/
def selNavHasText (e : List Char) : List Char :=
  'n' :: ("av a:has-text(\"".toList ++ e ++ "\")".toList)

/-- `f-string text="{e}"` — first of the two free-text fallbacks. -/
def selTextEq (e : List Char) : List Char :=
  't' :: ("ext=\"".toList ++ e ++ "\"".toList)

/-- `f-string :text("{e}")` — the final free-text fallback. -/
def selTextFn (e : List Char) : List Char :=
  ':' :: ("text(\"".toList ++ e ++ "\")".toList)

/-- The curated WhatsApp selector table. -/
def WHATSAPP_SEL : List (List Char × List (List Char)) := [
  ("search".toList,
    ["[data-testid=\"chat-list-search\"]".toList,
     "[placeholder=\"Search or start new chat\"]".toList,
     "[title=\"Search or start new chat\"]".toList,
     "div[contenteditable][data-tab=\"3\"]".toList,
     "div[role=\"textbox\"][title*=\"Search\"]".toList]),
  ("type a message".toList,
    ["div[contenteditable][data-tab=\"10\"]".toList,
     "div[role=\"textbox\"][data-tab=\"10\"]".toList,
     "[data-testid=\"conversation-compose-box-input\"]".toList,
     "footer div[contenteditable]".toList,
     "div[contenteditable][title*=\"message\" i]".toList]),
  ("send".toList,
    ["[data-testid=\"send\"]".toList,
     "button[aria-label=\"Send\"]".toList,
     "span[data-testid=\"send\"]".toList])]

/-- The curated Discord selector table. -/
def DISCORD_SEL : List (List Char × List (List Char)) := [
  ("search".toList,
    ["[placeholder=\"Find or start a conversation\"]".toList,
     "[aria-label=\"Search\"]".toList,
     "div[role=\"textbox\"]".toList]),
  ("type a message".toList,
    ["[role=\"textbox\"][aria-multiline=\"true\"]".toList,
     "div[data-slate-editor]".toList,
     "[placeholder*=\"Message\" i]".toList])]

/-- The curated Spotify selector table. -/
def SPOTIFY_SEL : List (List Char × List (List Char)) := [
  ("search".toList,
    ["input[data-testid=\"search-input\"]".toList,
     "input[placeholder*=\"Search\" i]".toList,
     "[role=\"searchbox\"]".toList]),
  ("play".toList,
    ["button[data-testid=\"play-button\"]".toList,
     "[aria-label*=\"Play\" i]".toList])]

/-- The curated VS Code selector table. -/
def VSCODE_SEL : List (List Char × List (List Char)) := [
  ("search".toList,
    [".quick-input-box input".toList, "input.input".toList]),
  ("terminal".toList,
    [".terminal textarea".toList, ".xterm-helper-textarea".toList]),
  ("command".toList,
    [".quick-input-box input".toList])]

/-- The input-like generic constant selectors that follow the three
interpolated attribute queries. -/
def inputConstSels : List (List Char) :=
  ["input[type=\"text\"]".toList,
   "input[type=\"search\"]".toList,
   "div[contenteditable=\"true\"]".toList,
   "textarea".toList,
   "[role=\"textbox\"]".toList,
   "[role=\"searchbox\"]".toList]

/-- Keyword set triggering the input-like generic block. -/
def inputKeys : List (List Char) :=
  ["search".toList, "find".toList, "query".toList, "input".toList,
   "type".toList, "message".toList, "compose".toList]

/-- Keyword set triggering the button-like generic block. -/
def buttonKeys : List (List Char) :=
  ["send".toList, "submit".toList, "ok".toList, "confirm".toList,
   "button".toList, "click".toList]

/-- Keyword set triggering the link/nav generic block. -/
def navKeys : List (List Char) :=
  ["home".toList, "back".toList, "forward".toList, "nav".toList,
   "menu".toList, "tab".toList]

/-- One curated table's contribution: every entry whose key contains or is
contained by the element name extends the selector list, in table order. -/
def dictBlock (d : List (List Char × List (List Char))) (name : List Char) :
    List (List Char) :=
  (d.map (fun kv => if bothContain kv.1 name then kv.2 else [])).flatten

/-- The app-specific layer of `build_selectors` (conditions on the
lowercased, stripped app name). -/
def appSelectorsPart (name app : List Char) : List (List Char) :=
  (if pyIn "whatsapp".toList app then dictBlock WHATSAPP_SEL name else []) ++
  (if pyIn "discord".toList app then dictBlock DISCORD_SEL name else []) ++
  (if pyIn "spotify".toList app then dictBlock SPOTIFY_SEL name else []) ++
  (if pyIn "code".toList app || pyIn "vscode".toList app then
    dictBlock VSCODE_SEL name else [])

/-- The generic role-heuristic layer of `build_selectors`: input-like,
button-like and nav blocks, keyed on the lowercased, stripped element name
but interpolating the raw element name. -/
def genericSelectorsPart (name e : List Char) : List (List Char) :=
  (if inputKeys.any (fun k => pyIn k name) then
    [selPlaceholder e, selAriaLabel e, selTitleAttr e] ++ inputConstSels
   else []) ++
  (if buttonKeys.any (fun k => pyIn k name) then
    [selBtnAria e, selRoleBtnAria e, selBtnHasText e, selTitleAttr e]
   else []) ++
  (if navKeys.any (fun k => pyIn k name) then
    [selAHasAria e, selRoleTabAria e, selNavHasText e]
   else [])

/-- The source's seen-set deduplication: keep each selector's first
occurrence, in order. -/
def dedupFirst (seen : List (List Char)) : List (List Char) → List (List Char)
  | [] => []
  | x :: xs =>
    if x ∈ seen then dedupFirst seen xs else x :: dedupFirst (x :: seen) xs

/-- `build_selectors` from the source: app-specific curated selectors,
then generic role heuristics, then the two free-text fallbacks, then
deduplication preserving first occurrences. -/
def build_selectors (element_name app_name : List Char) : List (List Char) :=
  let name := pyStrip (lowerL element_name)
  let app := pyStrip (lowerL app_name)
  dedupFirst []
    (appSelectorsPart name app ++ genericSelectorsPart name element_name ++
      [selTextEq element_name, selTextFn element_name])

/-- `True` iff a selector's first character is the colon that opens the
final free-text fallback. -/
def headIsColon (s : List Char) : Bool := s.head? == some ':'

example : fuzzy_score "Search".toList "search".toList = 100 := by decide
example : fuzzy_score "What s App".toList "whatsapp".toList = 100 := by decide
example : fuzzy_score "sea".toList "search bar".toList = 85 := by decide
example : fuzzy_score "xyz".toList "abc".toList = 0 := by decide
example : fuzzy_score "axc".toList "abc".toList = 20 := by decide

lemma overlap_branch_le (L hits : Nat) (h : hits ≤ L) :
    (hits * 30) / (max L 1) ≤ 100 := by
  rcases Nat.eq_zero_or_pos L with h0 | h0
  · subst h0
    have hh : hits = 0 := Nat.le_zero.mp h
    subst hh
    simp
  · have hm : max L 1 = L := Nat.max_eq_left h0
    rw [hm]
    have h2 : (hits * 30) / L ≤ (L * 30) / L :=
      Nat.div_le_div_right (Nat.mul_le_mul_right 30 h)
    have h3 : L * 30 / L = 30 := Nat.mul_div_cancel_left 30 h0
    omega

/-- C3: `fuzzy_score` is an integer in `[0,100]` computed by the
first-match-wins rule cascade of the specification (equal 100, starts-with
85, query-in-candidate 70, candidate-in-query 55, else floored overlap
ratio scaled to 0–30); `fuzzy_score x x = 100` for non-empty `x`, and the
function is a pure (hence deterministic) function of its two arguments. -/
theorem C3_fuzzy_score_rules :
    (∀ q c, fuzzy_score q c = fuzzyScoreSpec q c) ∧
    (∀ q c, fuzzy_score q c ≤ 100) ∧
    (∀ x : List Char, x ≠ [] → fuzzy_score x x = 100) := by
  refine ⟨fun q c => rfl, fun q c => ?_, fun x _ => by unfold fuzzy_score; simp⟩
  unfold fuzzy_score
  dsimp only
  split
  · exact Nat.le_refl 100
  split
  · omega
  split
  · omega
  split
  · omega
  exact overlap_branch_le _ _ (List.length_filter_le _ _)

/-- C3 witness: the non-emptiness hypothesis discharged at `x = "ok"`. -/
theorem C3_fuzzy_score_rules_witness :
    fuzzy_score "ok".toList "ok".toList = 100 :=
  C3_fuzzy_score_rules.2.2 "ok".toList (by decide)

/-- C8 counterexample: for app `"whats app"` and element `"emoji"` the
claim's normalized-containment lookup resolves to the WhatsApp-specific
entry `ctrl+e`, but the code — which only lowercases and strips — matches
no application table and no generic entry, returning nothing. -/
theorem C8_shortcut_lookup_cex :
    get_shortcut "whats app".toList "emoji".toList = (none, none) ∧
    getShortcutClaim "whats app".toList "emoji".toList =
      (some "ctrl+e".toList, some 5) := by
  exact ⟨by decide, by decide⟩

/-- C8 (amended): shortcut lookup consults the per-application table
before the application-agnostic generic table, matching names by substring
containment in either direction on lowercased, whitespace-stripped names
(spaces, hyphens and underscores inside names are kept); for app
`"discord"`, element `"search"`, the lookup resolves to the
Discord-specific `ctrl+k` and not the generic `ctrl+f` entry, though both
tables define an entry for `"search"`. -/
theorem C8_shortcut_precedence :
    (∀ app elem v,
        findAppEntry APP_SHORTCUTS (pyStrip (lowerL app)) (pyStrip (lowerL elem)) =
          some v →
        get_shortcut app elem = (v.1, some v.2)) ∧
    (∀ app elem,
        findAppEntry APP_SHORTCUTS (pyStrip (lowerL app)) (pyStrip (lowerL elem)) =
          none →
        get_shortcut app elem =
          (match findGenericEntry GENERIC_SHORTCUTS (pyStrip (lowerL elem)) with
           | some (hk, d) => (some hk, some d)
           | none => (none, none))) ∧
    get_shortcut "discord".toList "search".toList =
      (some "ctrl+k".toList, some 6) ∧
    findGenericEntry GENERIC_SHORTCUTS "search".toList =
      some ("ctrl+f".toList, 5) := by
  refine ⟨fun app elem v h => ?_, fun app elem h => ?_, by decide, by decide⟩
  · obtain ⟨hk, d⟩ := v
    unfold get_shortcut
    dsimp only
    rw [h]
  · unfold get_shortcut
    dsimp only
    rw [h]

/-- C8 witness: the per-application-table hypothesis discharged at
app `"discord"`, element `"search"`. -/
theorem C8_shortcut_precedence_witness :
    get_shortcut "discord".toList "search".toList =
      (some "ctrl+k".toList, some 6) :=
  C8_shortcut_precedence.1 "discord".toList "search".toList
    (some "ctrl+k".toList, 6) (by decide)

lemma click_tail_eq (app elem : List Char) (env : RouterEnv) :
    (if env.uiaClick then ActionResult.ok "uia:click".toList
     else
       match get_shortcut app elem with
       | (some (c :: cs), _) => .ok ("keyboard:".toList ++ (c :: cs))
       | _ =>
         match env.ocr with
         | some (x, y) => .ok ("ocr:click:".toList ++ fmtPair x y)
         | none =>
           .err ("All layers failed to click \"".toList ++ elem ++ "\"".toList)) =
    (match firstHit [tierAccClick env, tierShortcut app elem, tierVisClick env] with
     | some r => r
     | none =>
       .err ("All layers failed to click \"".toList ++ elem ++ "\"".toList)) := by
  cases hu : env.uiaClick
  · rcases hgs : get_shortcut app elem with ⟨hk, d⟩
    rcases hk with _ | l
    · rcases ho : env.ocr with _ | ⟨x, y⟩ <;>
        simp [tierAccClick, tierShortcut, tierVisClick, hu, hgs, ho, firstHit,
          ActionResult.success]
    · rcases l with _ | ⟨c, cs⟩ <;>
        rcases ho : env.ocr with _ | ⟨x, y⟩ <;>
          simp [tierAccClick, tierShortcut, tierVisClick, hu, hgs, ho, firstHit,
            ActionResult.success]
  · simp [tierAccClick, hu, firstHit, ActionResult.success]

lemma type_tail_eq (text : List Char) (env : RouterEnv) :
    (if !isSpecialText text && env.uiaType then ActionResult.ok "uia:type".toList
     else
       match env.ocr with
       | some (x, y) => .ok ("ocr:type:".toList ++ fmtPair x y)
       | none => .ok "fallback:type_focused".toList) =
    (match firstHit [if isSpecialText text then none else tierAccType env,
        tierVisType env] with
     | some r => r
     | none => .ok "fallback:type_focused".toList) := by
  cases hs : isSpecialText text <;> cases hu : env.uiaType <;>
    rcases ho : env.ocr with _ | ⟨x, y⟩ <;>
      simp [tierAccType, tierVisType, hs, hu, ho, firstHit, ActionResult.success]

lemma smart_click_eq_spec (app elem : List Char) (env : RouterEnv) :
    smart_click app elem env = routeClickSpec app elem env := by
  unfold smart_click routeClickSpec
  dsimp only
  cases hp : env.cdpPort with
  | none =>
    simpa [tierSDClick, hp, firstHit] using click_tail_eq app elem env
  | some p =>
    cases hc : env.cdpClick with
    | none =>
      simpa [tierSDClick, hp, hc, firstHit] using click_tail_eq app elem env
    | some r =>
      cases r with
      | ok s => simp [tierSDClick, hp, hc, firstHit, ActionResult.success]
      | err m =>
        simpa [tierSDClick, hp, hc, firstHit, ActionResult.success] using
          click_tail_eq app elem env

lemma smart_type_eq_spec (app elem text : List Char) (env : RouterEnv) :
    smart_type app elem text env = routeTypeSpec app elem text env := by
  unfold smart_type routeTypeSpec
  dsimp only
  cases hp : env.cdpPort with
  | none =>
    simpa [tierSDType, hp, firstHit] using type_tail_eq text env
  | some p =>
    cases hc : env.cdpType with
    | none =>
      simpa [tierSDType, hp, hc, firstHit] using type_tail_eq text env
    | some r =>
      cases r with
      | ok s => simp [tierSDType, hp, hc, firstHit, ActionResult.success]
      | err m =>
        simpa [tierSDType, hp, hc, firstHit, ActionResult.success] using
          type_tail_eq text env

lemma smart_type_success (app elem text : List Char) (env : RouterEnv) :
    (smart_type app elem text env).success = true := by
  unfold smart_type
  dsimp only
  cases hp : env.cdpPort with
  | none =>
    cases hio : (!isSpecialText text && env.uiaType) <;>
      rcases ho : env.ocr with _ | ⟨x, y⟩ <;> simp [hio, ho, ActionResult.success]
  | some p =>
    cases hc : env.cdpType with
    | none =>
      cases hio : (!isSpecialText text && env.uiaType) <;>
        rcases ho : env.ocr with _ | ⟨x, y⟩ <;>
          simp [hio, ho, ActionResult.success]
    | some r =>
      cases r with
      | ok s => simp [ActionResult.success]
      | err m =>
        cases hio : (!isSpecialText text && env.uiaType) <;>
          rcases ho : env.ocr with _ | ⟨x, y⟩ <;>
            simp [hio, ho, ActionResult.success]

/-- C1 counterexample: for a type intent in an environment with no CDP
endpoint, a failing Accessibility tier and no OCR hit, the Shortcut tier
for `("discord", "search")` would succeed with `ctrl+k`, so the claimed
four-tier router returns the shortcut strategy — but the code's type
router never consults the Shortcut tier and returns the focused-typing
fallback instead. -/
theorem C1_router_precedence_cex :
    smart_type "discord".toList "search".toList "hello".toList
        ⟨none, none, none, false, false, none⟩ =
      .ok "fallback:type_focused".toList ∧
    routeTypeClaim "discord".toList "search".toList
        ⟨none, none, none, false, false, none⟩ =
      .ok "keyboard:ctrl+k".toList ∧
    smart_type "discord".toList "search".toList "hello".toList
        ⟨none, none, none, false, false, none⟩ ≠
      routeTypeClaim "discord".toList "search".toList
        ⟨none, none, none, false, false, none⟩ :=
  ⟨by decide, by decide, by decide⟩

/-- C1 (amended): for click intents the router tries the four tiers in the
fixed precedence Structured-Document → Accessibility → Shortcut →
Visual-Recognition, stopping at the first success; for type intents the
Shortcut tier is never attempted — the precedence is Structured-Document →
Accessibility (skipped for brace-enclosed text) → Visual-Recognition,
ending in a focused-typing fallback; for both intents, whenever the
Structured-Document tier is available and succeeds, the returned result is
that tier's and no later tier is attempted. -/
theorem C1_router_precedence :
    (∀ app elem env, smart_click app elem env = routeClickSpec app elem env) ∧
    (∀ app elem text env,
      smart_type app elem text env = routeTypeSpec app elem text env) ∧
    (∀ app elem env r, env.cdpPort.isSome = true → env.cdpClick = some r →
      r.success = true → smart_click app elem env = r) ∧
    (∀ app elem text env r, env.cdpPort.isSome = true → env.cdpType = some r →
      r.success = true → smart_type app elem text env = r) := by
  refine ⟨smart_click_eq_spec, smart_type_eq_spec, ?_, ?_⟩
  · intro app elem env r h1 h2 h3
    unfold smart_click
    dsimp only
    cases hp : env.cdpPort with
    | none => rw [hp] at h1; simp at h1
    | some p => simp [h2, h3]
  · intro app elem text env r h1 h2 h3
    unfold smart_type
    dsimp only
    cases hp : env.cdpPort with
    | none => rw [hp] at h1; simp at h1
    | some p => simp [h2, h3]

/-- C1 witness: the Structured-Document-first hypotheses discharged in an
environment where the CDP round trip reports success. -/
theorem C1_router_precedence_witness :
    smart_click "discord".toList "search".toList
        ⟨some 9222, some (.ok "cdp:sel".toList), none, true, false, none⟩ =
      .ok "cdp:sel".toList :=
  C1_router_precedence.2.2.1 "discord".toList "search".toList
    ⟨some 9222, some (.ok "cdp:sel".toList), none, true, false, none⟩
    (.ok "cdp:sel".toList) rfl rfl rfl

/-- C2 counterexample: with every tier exhausted, the click router's error
message names the element but not the app (`"discord"` does not occur in
it), and the type router does not fail at all — it reports success through
the focused-typing fallback. -/
theorem C2_exhaustion_cex :
    smart_click "discord".toList "zzz".toList
        ⟨some 9222, none, none, false, false, none⟩ =
      .err "All layers failed to click \"zzz\"".toList ∧
    pyIn "discord".toList "All layers failed to click \"zzz\"".toList = false ∧
    (smart_type "discord".toList "zzz".toList "hi".toList
        ⟨some 9222, none, none, false, false, none⟩).success = true :=
  ⟨by decide, by decide, by decide⟩

lemma startsL_self_append (l b : List Char) : startsL l (l ++ b) = true := by
  induction l with
  | nil => rfl
  | cons c cs ih => simp [startsL, ih]

lemma pyIn_self_append (l b : List Char) : pyIn l (l ++ b) = true := by
  cases l with
  | nil => cases b <;> simp [pyIn, startsL]
  | cons c cs =>
    have h := startsL_self_append (c :: cs) b
    simp only [List.cons_append] at h
    simp [pyIn, h]

lemma pyIn_middle (l a b : List Char) : pyIn l (a ++ l ++ b) = true := by
  induction a with
  | nil => simpa using pyIn_self_append l b
  | cons x xs ih => simpa [pyIn] using Or.inr ih

/-- C2 (amended): when all four tiers report unavailable or failed for a
click intent, the router returns failure whose error message contains the
element's name (the app name is not included), and — being a total
function — never throws; a type intent never returns failure at all: on
exhaustion it succeeds through the type-into-focused-element fallback. -/
theorem C2_exhaustion :
    (∀ app elem env,
      (env.cdpPort = none ∨ env.cdpClick = none ∨
        (∃ m, env.cdpClick = some (.err m))) →
      env.uiaClick = false →
      tierShortcut app elem = none →
      env.ocr = none →
      smart_click app elem env =
        .err ("All layers failed to click \"".toList ++ elem ++ "\"".toList) ∧
      pyIn elem
        ("All layers failed to click \"".toList ++ elem ++ "\"".toList) = true) ∧
    (∀ app elem text env, (smart_type app elem text env).success = true) := by
  refine ⟨fun app elem env h1 h2 h3 h4 => ⟨?_, ?_⟩, smart_type_success⟩
  · unfold smart_click
    dsimp only
    have hsc : (match get_shortcut app elem with
        | (some (c :: cs), _) =>
          ActionResult.ok ("keyboard:".toList ++ (c :: cs))
        | _ =>
          match env.ocr with
          | some (x, y) => ActionResult.ok ("ocr:click:".toList ++ fmtPair x y)
          | none =>
            ActionResult.err
              ("All layers failed to click \"".toList ++ elem ++ "\"".toList)) =
        ActionResult.err
          ("All layers failed to click \"".toList ++ elem ++ "\"".toList) := by
      rcases hgs : get_shortcut app elem with ⟨hk, d⟩
      rcases hk with _ | (_ | ⟨c, cs⟩)
      · simp [h4]
      · simp [h4]
      · exfalso
        simp [tierShortcut, hgs] at h3
    rcases h1 with hp | hc | ⟨m, hm⟩
    · rw [hp, h2]
      simpa using hsc
    · cases hp : env.cdpPort with
      | none => rw [h2]; simpa using hsc
      | some p => rw [hc, h2]; simpa using hsc
    · cases hp : env.cdpPort with
      | none => rw [h2]; simpa using hsc
      | some p => rw [hm, h2]; simpa [ActionResult.success] using hsc
  · exact pyIn_middle elem "All layers failed to click \"".toList "\"".toList

/-- C2 witness: the exhaustion hypotheses discharged at app `"discord"`,
element `"zzz"`, in an environment where CDP failed, UIA failed, no
shortcut matches and OCR found nothing. -/
theorem C2_exhaustion_witness :
    smart_click "discord".toList "zzz".toList
        ⟨some 7744, none, none, false, false, none⟩ =
      .err ("All layers failed to click \"".toList ++ "zzz".toList ++
        "\"".toList) ∧
    pyIn "zzz".toList
      ("All layers failed to click \"".toList ++ "zzz".toList ++
        "\"".toList) = true :=
  C2_exhaustion.1 "discord".toList "zzz".toList
    ⟨some 7744, none, none, false, false, none⟩
    (Or.inr (Or.inl rfl)) rfl (by decide) rfl

/-- C10: for a type intent whose text is brace-enclosed, the router skips
the Accessibility tier entirely: the result equals that of a router that
goes from the Structured-Document tier straight to the Visual-Recognition
tier and then the focused-typing fallback, never consulting the
accessibility outcome. -/
theorem C10_special_type_skips_uia :
    ∀ app elem text env, isSpecialText text = true →
      smart_type app elem text env = routeTypeSpecial app elem text env := by
  intro app elem text env hs
  rw [smart_type_eq_spec]
  unfold routeTypeSpec routeTypeSpecial
  rw [hs]
  cases ht : tierSDType env with
  | none => simp [firstHit]
  | some r => cases hr : r.success <;> simp [firstHit, hr]

/-- C10 witness: the brace-enclosure hypothesis discharged at
text `"{ENTER}"`, in an environment where the Accessibility tier would
have succeeded had it been consulted. -/
theorem C10_special_type_skips_uia_witness :
    smart_type "notepad".toList "editor".toList "\x7bENTER\x7d".toList
        ⟨none, none, none, false, true, none⟩ =
      routeTypeSpecial "notepad".toList "editor".toList "\x7bENTER\x7d".toList
        ⟨none, none, none, false, true, none⟩ :=
  C10_special_type_skips_uia "notepad".toList "editor".toList
    "\x7bENTER\x7d".toList ⟨none, none, none, false, true, none⟩ (by decide)

lemma foldl_guard_eq_filter {α β : Type} (q : α → Prop) [DecidablePred q]
    (f : β → α → β) :
    ∀ (l : List α) (init : β),
      l.foldl (fun acc a => if q a then acc else f acc a) init =
        (l.filter (fun a => !(decide (q a)))).foldl f init := by
  intro l
  induction l with
  | nil => intro init; rfl
  | cons a as ih => intro init; by_cases h : q a <;> simp [h, ih]

lemma ocr_fold_inv (elem : List Char) (origin : Nat × Nat) :
    ∀ (l : List Det) (acc : Nat × Option (Nat × Nat)),
      (0 < acc.1 → acc.2.isSome = true) →
      (0 < (l.foldl (ocrStepClaim elem origin) acc).1 →
        (l.foldl (ocrStepClaim elem origin) acc).2.isSome = true) := by
  intro l
  induction l with
  | nil => intro acc h; exact h
  | cons d ds ih =>
    intro acc h
    simp only [List.foldl_cons]
    apply ih
    unfold ocrStepClaim
    split
    · intro _; rfl
    · exact h

lemma filter_self_idem {α : Type} (p : α → Bool) (l : List α) :
    (l.filter p).filter p = l.filter p := by
  induction l with
  | nil => rfl
  | cons a as ih => cases hp : p a <;> simp [List.filter, hp, ih]

/-- C9: every OCR detection whose confidence is strictly below `0.4` is
discarded before scoring — `ocr_find_element` computes the same result on
the full detection list as on the list with all low-confidence detections
removed, so such a detection can never be selected, whatever its text. -/
theorem C9_low_confidence_discarded :
    ∀ elem dets origin,
      ocr_find_element elem dets origin =
        ocr_find_element elem
          (dets.filter (fun d => !(decide (d.conf100 < 40)))) origin := by
  intro elem dets origin
  unfold ocr_find_element ocrStep
  rw [foldl_guard_eq_filter (fun d => d.conf100 < 40) (ocrStepClaim elem origin),
    foldl_guard_eq_filter (fun d => d.conf100 < 40) (ocrStepClaim elem origin),
    filter_self_idem]

/-- C4 counterexample: a single detection whose text equals the element
name but whose confidence is `0.30` has weighted score `30 ≥ 20`, so the
claim's selection returns its translated center — the code discards it
and returns no coordinates. -/
theorem C4_ocr_selection_cex :
    ocr_find_element "ok".toList
        [⟨(0, 0), (10, 0), (10, 10), (0, 10), "ok".toList, 30⟩] (5, 7) =
      none ∧
    ocrSelectClaim "ok".toList
        [⟨(0, 0), (10, 0), (10, 10), (0, 10), "ok".toList, 30⟩] (5, 7) =
      some (10, 12) :=
  ⟨by decide, by decide⟩

/-- C4 (amended): among the detections whose confidence is at least `0.4`,
`ocr_find_element` scores each by `fuzzy_score(elementName, text) ×
confidence`, selects the highest-scoring one, and returns coordinates only
when that weighted score is at least the threshold `20`; the returned
point is the center of the detection's bounding box translated by the
window's top-left origin; otherwise it returns no coordinates. -/
theorem C4_ocr_selection :
    ∀ elem dets origin,
      ocr_find_element elem dets origin = ocrSelectAmended elem dets origin := by
  intro elem dets origin
  unfold ocr_find_element ocrSelectAmended ocrStep
  rw [foldl_guard_eq_filter (fun d => d.conf100 < 40) (ocrStepClaim elem origin)]
  dsimp only
  set best := (dets.filter (fun d => !(decide (d.conf100 < 40)))).foldl
    (ocrStepClaim elem origin) (0, none) with hbest
  by_cases h : 2000 ≤ best.1
  · have hsome : best.2.isSome = true := by
      apply ocr_fold_inv elem origin _ (0, none)
      · intro h0; exact absurd h0 (by simp)
      · rw [← hbest]; omega
    simp [h, hsome]
  · simp [h]

/-- C6 counterexample: a `control_type` string of 61 characters is passed
through untruncated — the code slices only `title` and `auto_id` — so the
returned triple's `control_type` field has length 61, not at most 60. -/
theorem C6_truncation_cex :
    (cmd_list_elements_items
        [⟨some "a".toList, some (List.replicate 61 'c'), some []⟩]).map
      (fun e => e.control_type.length) = [61] := by decide

/-- C6 (amended): the result record's ordered `{title, control_type,
auto_id}` sequence holds at most 80 entries, and in each entry the `title`
and `auto_id` fields are truncated to at most 60 characters
(`control_type` is included untruncated). -/
theorem C6_truncation :
    ∀ raws, (cmd_list_elements_items raws).length ≤ 80 ∧
      ((cmd_list_elements_items raws).all
        (fun e => e.title.length ≤ 60 && e.auto_id.length ≤ 60)) = true := by
  intro raws
  constructor
  · simp [cmd_list_elements_items, List.length_take]
  · rw [List.all_eq_true]
    intro e he
    have he2 := List.take_subset 80 _ he
    rw [List.mem_filterMap] at he2
    obtain ⟨r, _, hf⟩ := he2
    rcases ht : r.titleRead with _ | t
    · rw [ht] at hf; exact absurd hf (by simp)
    · rw [ht] at hf
      dsimp only at hf
      split at hf
      · have he3 : e = ⟨t.take 60, r.ctrlRead.getD [], (r.autoRead.getD []).take 60⟩ :=
          (Option.some_inj.mp hf).symm
        subst he3
        simp [List.length_take]
      · exact absurd hf (by simp)

lemma fwLoop_unfold (app : List Char) (env : Nat → FWRound) (i d n : Nat) :
    fwLoop app env i d n =
      if n < d then
        match fwRound app (env i) with
        | some w => some w
        | none => fwLoop app env (i + 1) d (n + (env i).durTicks + 1)
      else none := by
  rw [fwLoop]

lemma bestWin_fold_lt (app : List Char) :
    ∀ (ws : List WinInfo) (acc : Nat × Option WinInfo),
      (∀ w ∈ ws, w.readOk = true → winScore app w < 40) →
      acc.1 < 40 →
      (ws.foldl (fun acc w =>
        if w.readOk then
          if winScore app w > acc.1 then (winScore app w, some w) else acc
        else acc) acc).1 < 40 := by
  intro ws
  induction ws with
  | nil => intro acc _ hacc; exact hacc
  | cons w rest ih =>
    intro acc h hacc
    simp only [List.foldl_cons]
    refine ih _ (fun v hv => h v (List.mem_cons_of_mem w hv)) ?_
    cases hr : w.readOk
    · simpa using hacc
    · have hscore := h w (List.mem_cons_self w rest) hr
      by_cases hgt : winScore app w > acc.1 <;> simp [hr, hgt] <;> omega

lemma bestWin_lt_forty (app : List Char) (ws : List WinInfo)
    (h : ∀ w ∈ ws, w.readOk = true → winScore app w < 40) :
    (bestWin app ws).1 < 40 :=
  bestWin_fold_lt app ws (0, none) h (by omega)

lemma fwRound_none_of_low (app : List Char) (r : FWRound)
    (h : ∀ w ∈ r.wins, w.readOk = true → winScore app w < 40) :
    fwRound app r = none := by
  unfold fwRound
  have hlt := bestWin_lt_forty app r.wins h
  cases hb : (bestWin app r.wins).2 with
  | none => rfl
  | some w =>
    have : ¬ (40 ≤ (bestWin app r.wins).1 ∧ r.bindOk) := by
      intro ⟨h40, _⟩; omega
    simp [this]

lemma fwRound_none_of_bind_fail (app : List Char) (r : FWRound)
    (h : r.bindOk = false) :
    fwRound app r = none := by
  unfold fwRound
  cases hb : (bestWin app r.wins).2 with
  | none => rfl
  | some w => simp [h]

lemma fwLoop_none_of_low (app : List Char) (env : Nat → FWRound)
    (h : ∀ i, ∀ w ∈ (env i).wins, w.readOk = true → winScore app w < 40) :
    ∀ m i d n, d - n ≤ m → fwLoop app env i d n = none := by
  intro m
  induction m with
  | zero =>
    intro i d n hm
    rw [fwLoop_unfold]
    have : ¬ n < d := by omega
    simp [this]
  | succ k ih =>
    intro i d n hm
    rw [fwLoop_unfold]
    by_cases hn : n < d
    · rw [fwRound_none_of_low app (env i) (h i)]
      simp only [hn, if_true]
      exact ih (i + 1) d (n + (env i).durTicks + 1) (by omega)
    · simp [hn]

/-- C7: `find_window_handle` with `timeout = 0` fails immediately for
every environment — no enumeration round is ever consulted; more
generally, whenever no enumerated readable window ever reaches fuzzy
score `40` on its title or class name, the locator fails after the
deadline; and an iteration whose automation bind fails continues polling
into the next iteration rather than failing the whole locate. -/
theorem C7_find_window_timeout :
    (∀ app env, find_window_handle app env 0 = none) ∧
    (∀ app env timeout,
      (∀ i, ∀ w ∈ (env i).wins, w.readOk = true → winScore app w < 40) →
      find_window_handle app env timeout = none) ∧
    (∀ app env i d n, (env i).bindOk = false → n < d →
      fwLoop app env i d n =
        fwLoop app env (i + 1) d (n + (env i).durTicks + 1)) := by
  refine ⟨fun app env => ?_, fun app env timeout h => ?_, fun app env i d n hb hn => ?_⟩
  · unfold find_window_handle
    rw [fwLoop_unfold]
    simp
  · exact fwLoop_none_of_low app env h (timeout - 0) 0 timeout 0 (by omega)
  · rw [fwLoop_unfold]
    rw [fwRound_none_of_bind_fail app (env i) hb]
    simp [hn]

/-- C7 witness: the hypotheses discharged in a concrete environment — a
constant round whose only window scores below 40, and a round with a
failing bind. -/
theorem C7_find_window_timeout_witness :
    find_window_handle "notepad".toList
        (fun _ => ⟨[⟨"zz".toList, "yy".toList, true⟩], true, 0⟩) 0 = none ∧
    find_window_handle "notepad".toList
        (fun _ => ⟨[⟨"zz".toList, "yy".toList, true⟩], true, 0⟩) 3 = none ∧
    fwLoop "notepad".toList
        (fun _ => ⟨[⟨"Notepad".toList, "Edit".toList, true⟩], false, 0⟩) 0 5 0 =
      fwLoop "notepad".toList
        (fun _ => ⟨[⟨"Notepad".toList, "Edit".toList, true⟩], false, 0⟩) 1 5 1 :=
  ⟨C7_find_window_timeout.1 "notepad".toList
      (fun _ => ⟨[⟨"zz".toList, "yy".toList, true⟩], true, 0⟩),
   C7_find_window_timeout.2.1 "notepad".toList
      (fun _ => ⟨[⟨"zz".toList, "yy".toList, true⟩], true, 0⟩) 3
      (by intro i w hw hr
          simp only [List.mem_singleton] at hw
          subst hw
          decide),
   C7_find_window_timeout.2.2 "notepad".toList
      (fun _ => ⟨[⟨"Notepad".toList, "Edit".toList, true⟩], false, 0⟩) 0 5 0
      rfl (by omega)⟩

example :
    (build_selectors "search".toList "discord".toList).head? =
      some "[placeholder=\"Find or start a conversation\"]".toList := by decide

example :
    (build_selectors "search".toList "discord".toList).getLast? =
      some ":text(\"search\")".toList := by decide

example :
    build_selectors "zqx".toList "unknownapp".toList =
      ["text=\"zqx\"".toList, ":text(\"zqx\")".toList] := by decide

lemma dedupFirst_not_mem_seen :
    ∀ (l seen : List (List Char)) (a : List Char),
      a ∈ dedupFirst seen l → a ∉ seen := by
  intro l
  induction l with
  | nil => intro seen a ha; exact absurd ha (by simp [dedupFirst])
  | cons x xs ih =>
    intro seen a ha
    unfold dedupFirst at ha
    by_cases hx : x ∈ seen
    · rw [if_pos hx] at ha
      exact ih seen a ha
    · rw [if_neg hx] at ha
      rcases List.mem_cons.mp ha with rfl | ha2
      · exact hx
      · intro hs
        exact ih (x :: seen) a ha2 (List.mem_cons_of_mem x hs)

lemma dedupFirst_nodup :
    ∀ (l seen : List (List Char)), (dedupFirst seen l).Nodup := by
  intro l
  induction l with
  | nil => intro seen; simp [dedupFirst]
  | cons x xs ih =>
    intro seen
    unfold dedupFirst
    by_cases hx : x ∈ seen
    · rw [if_pos hx]; exact ih seen
    · rw [if_neg hx]
      refine List.nodup_cons.mpr ⟨?_, ih (x :: seen)⟩
      intro hmem
      exact dedupFirst_not_mem_seen xs (x :: seen) x hmem (List.mem_cons_self x seen)

lemma dedupFirst_ne_nil (x : List Char) (xs : List (List Char)) :
    dedupFirst [] (x :: xs) ≠ [] := by
  unfold dedupFirst
  rw [if_neg (List.not_mem_nil x)]
  exact List.cons_ne_nil x _

lemma getLast?_dedupFirst_append :
    ∀ (l seen : List (List Char)) (b : List Char), b ∉ seen → b ∉ l →
      (dedupFirst seen (l ++ [b])).getLast? = some b := by
  intro l
  induction l with
  | nil =>
    intro seen b hb1 _
    rw [List.nil_append]
    simp only [dedupFirst]
    rw [if_neg hb1]
    rfl
  | cons x xs ih =>
    intro seen b hb1 hb2
    have hbx : b ≠ x := fun h => hb2 (h ▸ List.mem_cons_self x xs)
    have hbxs : b ∉ xs := fun h => hb2 (List.mem_cons_of_mem x h)
    rw [List.cons_append]
    unfold dedupFirst
    by_cases hx : x ∈ seen
    · rw [if_pos hx]
      exact ih seen b hb1 hbxs
    · rw [if_neg hx]
      have hrest := ih (x :: seen) b
        (fun h => (List.mem_cons.mp h).elim hbx hb1) hbxs
      cases hr : dedupFirst (x :: seen) (xs ++ [b]) with
      | nil => rw [hr] at hrest; exact absurd hrest (by simp)
      | cons y ys =>
        rw [hr] at hrest
        rw [List.getLast?_cons_cons]
        exact hrest

lemma mem_if_block {α : Type} {c : Prop} [Decidable c] {l : List α} {s : α}
    (h : s ∈ (if c then l else [])) : s ∈ l := by
  split at h
  · exact h
  · exact absurd h (List.not_mem_nil s)

lemma mem_dictBlock {d : List (List Char × List (List Char))}
    {name s : List Char} (h : s ∈ dictBlock d name) :
    ∃ kv ∈ d, s ∈ kv.2 := by
  unfold dictBlock at h
  rw [List.mem_flatten] at h
  obtain ⟨l, hl, hs⟩ := h
  rw [List.mem_map] at hl
  obtain ⟨kv, hkv, rfl⟩ := hl
  exact ⟨kv, hkv, mem_if_block hs⟩

lemma dict_heads (d : List (List Char × List (List Char)))
    (hd : (d.all (fun kv => kv.2.all (fun s => !(headIsColon s)))) = true)
    {name s : List Char} (h : s ∈ dictBlock d name) :
    headIsColon s = false := by
  obtain ⟨kv, hkv, hs⟩ := mem_dictBlock h
  rw [List.all_eq_true] at hd
  have h2 := hd kv hkv
  rw [List.all_eq_true] at h2
  have h3 := h2 s hs
  simpa using h3

lemma heads_before_fallback (e name app s : List Char)
    (h : s ∈ appSelectorsPart name app ++ genericSelectorsPart name e ++
      [selTextEq e]) :
    headIsColon s = false := by
  simp only [List.mem_append, List.mem_singleton] at h
  rcases h with (h | h) | rfl
  · unfold appSelectorsPart at h
    simp only [List.mem_append] at h
    rcases h with ((h | h) | h) | h
    · exact dict_heads WHATSAPP_SEL (by decide) (mem_if_block h)
    · exact dict_heads DISCORD_SEL (by decide) (mem_if_block h)
    · exact dict_heads SPOTIFY_SEL (by decide) (mem_if_block h)
    · exact dict_heads VSCODE_SEL (by decide) (mem_if_block h)
  · unfold genericSelectorsPart at h
    simp only [List.mem_append] at h
    rcases h with (h | h) | h
    · have h2 := mem_if_block h
      simp only [List.cons_append, List.nil_append, inputConstSels,
        List.mem_cons] at h2
      rcases h2 with rfl | rfl | rfl | rfl | rfl | rfl | rfl | rfl | rfl | h2
      · rfl
      · rfl
      · rfl
      · rfl
      · rfl
      · rfl
      · rfl
      · rfl
      · rfl
      · exact absurd h2 (List.not_mem_nil s)
    · have h2 := mem_if_block h
      simp only [List.mem_cons] at h2
      rcases h2 with rfl | rfl | rfl | rfl | h2
      · rfl
      · rfl
      · rfl
      · rfl
      · exact absurd h2 (List.not_mem_nil s)
    · have h2 := mem_if_block h
      simp only [List.mem_cons] at h2
      rcases h2 with rfl | rfl | rfl | h2
      · rfl
      · rfl
      · rfl
      · exact absurd h2 (List.not_mem_nil s)
  · rfl

/-- C5: for every element name and app name, `build_selectors` returns a
non-empty, duplicate-free ordered list of query strings (duplicates
removed preserving first occurrence) whose last entry is the free-text
query `:text("<element name>")`; structurally the list is the
deduplication of app-specific curated selectors, then generic role
heuristics, then the free-text fallbacks, in that order. -/
theorem C5_selector_synthesis :
    (∀ e a, build_selectors e a ≠ []) ∧
    (∀ e a, (build_selectors e a).Nodup) ∧
    (∀ e a, (build_selectors e a).getLast? = some (selTextFn e)) ∧
    (∀ e a, build_selectors e a =
      dedupFirst []
        (appSelectorsPart (pyStrip (lowerL e)) (pyStrip (lowerL a)) ++
          genericSelectorsPart (pyStrip (lowerL e)) e ++
          [selTextEq e, selTextFn e])) := by
  refine ⟨fun e a => ?_, fun e a => dedupFirst_nodup _ [], fun e a => ?_,
    fun e a => rfl⟩
  · unfold build_selectors
    dsimp only
    cases hL : appSelectorsPart (pyStrip (lowerL e)) (pyStrip (lowerL a)) ++
        genericSelectorsPart (pyStrip (lowerL e)) e with
    | nil =>
      rw [List.nil_append]
      exact dedupFirst_ne_nil _ _
    | cons x xs =>
      rw [List.cons_append]
      exact dedupFirst_ne_nil _ _
  · unfold build_selectors
    dsimp only
    have hsplit :
        appSelectorsPart (pyStrip (lowerL e)) (pyStrip (lowerL a)) ++
          genericSelectorsPart (pyStrip (lowerL e)) e ++
          [selTextEq e, selTextFn e] =
        (appSelectorsPart (pyStrip (lowerL e)) (pyStrip (lowerL a)) ++
          genericSelectorsPart (pyStrip (lowerL e)) e ++
          [selTextEq e]) ++ [selTextFn e] := by
      simp
    rw [hsplit]
    apply getLast?_dedupFirst_append
    · exact List.not_mem_nil _
    · intro hmem
      have hcol := heads_before_fallback e (pyStrip (lowerL e))
        (pyStrip (lowerL a)) (selTextFn e) hmem
      simp [headIsColon, selTextFn] at hcol

